import Mathlib

/-!
Verification development for the file_service repository (package s3 in
src/routes/routes.go): a shallow embedding of the S3-backed listing,
recursive aggregation, recursive deletion and link-cache code, together
with proofs and refutations of the frozen specification claims.

The object-store backend is external to the repository; it is modelled as a
function from a listing request to a response (an arbitrary such function in
the general theorems, and an S3-conformant model over a concrete key store
for concrete executions).  Machine integers of the source are modelled as
Nat: no claim depends on overflow behaviour.
-/

namespace FileService

/-- Backend and presign errors are opaque; a string models Go's error. -/
abbrev Err := String

/-- One backend object as reported by a listing call: key, byte size and
last-modified timestamp (an abstract Nat tick). -/
structure S3Obj where
  key : String
  size : Nat
  lastModified : Nat
deriving DecidableEq, Repr

/-- Request of one ListObjectsV2 call: key pfx, whether the "/" delimiter
is passed, MaxKeys and the optional continuation token. -/
structure ListV2Request where
  pfx : String
  delimited : Bool
  maxKeys : Nat
  continuationToken : Option String
deriving DecidableEq, Repr

/-- Response of one ListObjectsV2 call. -/
structure ListV2Response where
  contents : List S3Obj
  commonPrefixes : List String
  nextContinuationToken : Option String
  isTruncated : Bool
deriving DecidableEq, Repr

/-- The external object store, seen as the result of each listing request. -/
abbrev Backend := ListV2Request → Except Err ListV2Response

instance {ε α : Type} [DecidableEq ε] [DecidableEq α] : DecidableEq (Except ε α) :=
  fun a b =>
    match a, b with
    | .error e, .error e' =>
      if h : e = e' then isTrue (by rw [h]) else isFalse (by intro hh; cases hh; exact h rfl)
    | .error _, .ok _ => isFalse (by intro hh; cases hh)
    | .ok _, .error _ => isFalse (by intro hh; cases hh)
    | .ok x, .ok y =>
      if h : x = y then isTrue (by rw [h]) else isFalse (by intro hh; cases hh; exact h rfl)

/-- Embeds ObjectDetails: one file/folder record of a listing response.
DownloadLink is a plain string, empty when never set, as in the source. -/
structure ObjectDetails where
  name : String
  isFolder : Bool
  size : Nat
  lastModified : Nat
  downloadLink : String := ""
deriving DecidableEq, Repr

/-- Embeds ListFilesResponse of the source. -/
structure ListFilesResponse where
  files : List ObjectDetails
  nextPageToken : String
  isLastPage : Bool
  noOfRecordsReturned : Nat
  filesCount : Nat
  foldersCount : Nat
deriving DecidableEq, Repr

/-- Modelled from the spec: pkg/cache is not under src/.  URLCache maps an
object key to a (url, expiresAt) entry; CacheEntry invariant of the spec:
valid for reads iff now < expires_at. -/
structure URLCache where
  entries : List (String × String × Nat)
deriving DecidableEq, Repr

def emptyCache : URLCache := ⟨[]⟩

/-- Modelled from the spec: URLCache.Get returns the cached URL iff the key
is present and unexpired (now < expiresAt); expired or absent is a miss. -/
def URLCache.get (c : URLCache) (key : String) (now : Nat) : Option String :=
  match c.entries.find? (fun e => e.1 = key) with
  | some (_, url, expiresAt) => if now < expiresAt then some url else none
  | none => none

/-- Modelled from the spec: URLCache.Set stores (url, expiresAt) for the key,
replacing any previous entry for the same key. -/
def URLCache.set (c : URLCache) (key url : String) (expiresAt : Nat) : URLCache :=
  ⟨(key, url, expiresAt) :: c.entries.filter (fun e => e.1 ≠ key)⟩

/-- The fixed presign validity used by GenerateDownloadLink
(expiryTime = 15 * time.Minute), in abstract seconds. -/
def expirySeconds : Nat := 15 * 60

/-- Embeds S3.GenerateDownloadLink: cache lookup, then presign on a miss and
cache the result until now + expiryTime.  presign stands for the backend
req.Presign call; the Nat in the result counts presign invocations made. -/
def generateDownloadLink (presign : String → Except Err String) (now : Nat)
    (key : String) (c : URLCache) : Except Err (String × URLCache × Nat) :=
  match c.get key now with
  | some url => .ok (url, c, 0)
  | none =>
    match presign key with
    | .error e => .error e
    | .ok url => .ok (url, c.set key url (now + expirySeconds), 1)

/-- Embeds the trailing-slash normalization used by ListFiles, DeleteFolder
and ListAllFolders: append "/" unless the path is empty or already ends
with it (the last-character test is equivalent to HasSuffix for the
one-character suffix "/"). -/
def normalizePath (p : String) : String :=
  if p ≠ "" ∧ ¬ p.data.getLast? = some '/' then p ++ "/" else p

/-- The ListObjectsV2 request that ListFiles issues: pfx = normalized
folder path, delimiter "/", MaxKeys = pageSize + 1, ContinuationToken set
iff the incoming token is nonempty. -/
def listPageRequest (fp tok : String) (pageSize : Nat) : ListV2Request :=
  { pfx := fp, delimited := true, maxKeys := pageSize + 1,
    continuationToken := if tok = "" then none else some tok }

/-- Folder record synthesized from a common pfx: size 0, lastModified =
now (time.Now approximation of the source), no download link. -/
def folderRecord (now : Nat) (p : String) : ObjectDetails :=
  { name := p, isFolder := true, size := 0, lastModified := now }

/-- File record for a content entry with its resolved download link;
IsFolder mirrors the source rule Size == 0. -/
def fileRecord (o : S3Obj) (url : String) : ObjectDetails :=
  { name := o.key, isFolder := o.size == 0, size := o.size,
    lastModified := o.lastModified, downloadLink := url }

/-- Embeds the contents loop of ListFiles (run only when isFolder is
false): skip the entry whose key equals the normalized folder path, count
and materialize every other entry, resolving its link through the cache;
the first link-resolution error aborts the loop.  Returns the file records,
the file count and the updated cache. -/
def processContents (presign : String → Except Err String) (now : Nat) (fp : String) :
    List S3Obj → URLCache → Except Err (List ObjectDetails × Nat × URLCache)
  | [], c => .ok ([], 0, c)
  | o :: rest, c =>
    if o.key = fp then processContents presign now fp rest c
    else
      match generateDownloadLink presign now o.key c with
      | .error e => .error e
      | .ok (url, c1, _) =>
        match processContents presign now fp rest c1 with
        | .error e => .error e
        | .ok (recs, cnt, c2) => .ok (fileRecord o url :: recs, cnt + 1, c2)

/-- Embeds S3.ListFiles (list_page).  The source builds the common-pfx
folder records before checking the list error, but on error the response is
empty and the error is returned regardless, so the embedding checks the
error first; everything else follows the source line by line. -/
def listFiles (backend : Backend) (presign : String → Except Err String) (now : Nat)
    (c : URLCache) (folderPath nextPageToken : String) (pageSize : Nat) (isFolder : Bool) :
    Except Err (ListFilesResponse × URLCache) :=
  match backend (listPageRequest (normalizePath folderPath) nextPageToken pageSize) with
  | .error e => .error e
  | .ok resp =>
    match isFolder with
    | true =>
      .ok ({ files := resp.commonPrefixes.map (folderRecord now),
             nextPageToken := resp.nextContinuationToken.getD "",
             isLastPage := !resp.isTruncated,
             noOfRecordsReturned := (resp.commonPrefixes.map (folderRecord now)).length,
             filesCount := 0,
             foldersCount := resp.commonPrefixes.length }, c)
    | false =>
      match processContents presign now (normalizePath folderPath) resp.contents c with
      | .error e => .error e
      | .ok (fileRecs, cnt, c1) =>
        .ok ({ files := resp.commonPrefixes.map (folderRecord now) ++ fileRecs,
               nextPageToken := resp.nextContinuationToken.getD "",
               isLastPage := !resp.isTruncated,
               noOfRecordsReturned := (resp.commonPrefixes.map (folderRecord now) ++ fileRecs).length,
               filesCount := cnt,
               foldersCount := resp.commonPrefixes.length }, c1)

/-- A presign that always succeeds, for concrete executions. -/
def presignOk : String → Except Err String := fun k => .ok ("https://signed/" ++ k)

/-! ## An S3-conformant model backend over a concrete key store

The object store itself is outside the repository; for concrete executions
the listing contract of the spec (prefix filter, delimiter grouping into
common prefixes, MaxKeys truncation, continuation tokens) is modelled over
a fixed store whose keys are kept in enumeration (lexicographic) order.
Continuation tokens encode the number of grouped items already consumed. -/

/-- One grouped enumeration item: a content object or a common pfx. -/
inductive ListItem
  | content (o : S3Obj)
  | group (p : String)
deriving DecidableEq, Repr

/-- Delimiter grouping of one key relative to the request pfx: a key with
a "/" after the pfx is reported as the common pfx up to and including
that first "/", otherwise as a content entry. -/
def itemOf (pre : String) (o : S3Obj) : ListItem :=
  let rest := o.key.toList.drop pre.length
  if rest.contains '/' then
    .group (pre ++ String.mk (rest.takeWhile (fun ch => ch ≠ '/')) ++ "/")
  else .content o

/-- Append an item, collapsing the run of keys sharing one common pfx
into a single group entry (grouped keys are adjacent in sorted order). -/
def pushItem (acc : List ListItem) (it : ListItem) : List ListItem :=
  match it with
  | .content o => acc ++ [.content o]
  | .group p => if acc.getLast? = some (.group p) then acc else acc ++ [.group p]

/-- The fully grouped enumeration for a request pfx over the store. -/
def itemsFor (pre : String) (delimited : Bool) (store : List S3Obj) : List ListItem :=
  (store.filter (fun o => pre.toList.isPrefixOf o.key.toList)).foldl
    (fun acc o => if delimited then pushItem acc (itemOf pre o) else acc ++ [.content o]) []

/-- Decode a continuation token of the model backend (a decimal count). -/
def tokenToNat (t : String) : Nat :=
  t.data.foldl (fun n ch => n * 10 + (ch.toNat - 48)) 0

/-- The model backend over a fixed store: pages of maxKeys grouped items,
truncation and a next token whenever items remain. -/
def storeBackend (store : List S3Obj) : Backend := fun req =>
  let items := itemsFor req.pfx req.delimited store
  let start := match req.continuationToken with
               | none => 0
               | some t => tokenToNat t
  let page := (items.drop start).take req.maxKeys
  let truncated : Bool := start + req.maxKeys < items.length
  .ok { contents := page.filterMap (fun it => match it with | .content o => some o | _ => none),
        commonPrefixes := page.filterMap (fun it => match it with | .group p => some p | _ => none),
        nextContinuationToken := if truncated then some (Nat.repr (start + req.maxKeys)) else none,
        isTruncated := truncated }

/-! ## DeleteFolder -/

/-- The flat (no delimiter) ListObjectsV2 request used by DeleteFolder and
ListAllFolders. -/
def flatRequest (fp : String) (maxKeys : Nat) (tok : Option String) : ListV2Request :=
  { pfx := fp, delimited := false, maxKeys := maxKeys, continuationToken := tok }

/-- Embeds the contents scan inside DeleteFolder's pagination loop: skip
the folder-path-itself entry, collect every other key, and — exactly as in
the source — update the loop's continuation token once per collected entry
to the page's NextContinuationToken, breaking out when that is nil.
Returns the grown key list and the token the loop continues with. -/
def deleteInnerScan (fp : String) (pageTok : Option String) :
    List S3Obj → Option String → List String → (List String × Option String)
  | [], tok, acc => (acc, tok)
  | o :: rest, tok, acc =>
    if o.key = fp then deleteInnerScan fp pageTok rest tok acc
    else
      match pageTok with
      | none => (acc ++ [o.key], none)
      | some t => deleteInnerScan fp pageTok rest (some t) (acc ++ [o.key])

/-- Embeds DeleteFolder's pagination loop (for nextToken != nil): fetch the
page for the current token with MaxKeys 1000, propagate a list error, scan
its contents, and continue with the token the scan left behind.  Fuel
models the Go loop's unbounded iteration; none means the loop has not
finished within the given fuel. -/
def collectLoop (backend : Backend) (fp : String) :
    Nat → Option String → List String → Option (Except Err (List String))
  | _, none, acc => some (.ok acc)
  | 0, some _, _ => none
  | fuel + 1, some t, acc =>
    match backend (flatRequest fp 1000 (some t)) with
    | .error e => some (.error e)
    | .ok curr =>
      let p := deleteInnerScan fp curr.nextContinuationToken curr.contents (some t) acc
      collectLoop backend fp fuel p.2 p.1

/-- Embeds the per-key delete loop of DeleteFolder over the backend store:
each key is deleted in order; oracle gives the backend's answer for each
delete call (none = success).  Returns the first error if any, the trace of
delete calls issued, and the resulting store. -/
def runDeletes (oracle : String → Option Err) :
    List String → List S3Obj → (Option Err × List String × List S3Obj)
  | [], store => (none, [], store)
  | k :: ks, store =>
    match oracle k with
    | some e => (some e, [k], store)
    | none =>
      let r := runDeletes oracle ks (store.filter (fun o => o.key != k))
      (r.1, k :: r.2.1, r.2.2)

/-- Embeds the deletion phase of DeleteFolder: delete every collected key
in order, then the folder marker itself; the first failure returns. -/
def deletePhase (oracle : String → Option Err) (keys : List String) (fp : String)
    (store : List S3Obj) : Option Err × List String × List S3Obj :=
  match runDeletes oracle keys store with
  | (some e, tr, st) => (some e, tr, st)
  | (none, tr, st) =>
    match oracle fp with
    | some e => (some e, tr ++ [fp], st)
    | none => (none, tr ++ [fp], st.filter (fun o => o.key != fp))

/-- Embeds S3.DeleteFolder: normalize the path, issue the first flat list
call with MaxKeys 2, collect its contents minus the marker, drain the
remaining pages through collectLoop, then run the deletion phase.  The
result is none when the pagination loop does not terminate; otherwise the
outcome, the delete-call trace and the final store. -/
def deleteFolder (fuel : Nat) (backend : Backend) (oracle : String → Option Err)
    (folderPath : String) (store : List S3Obj) :
    Option (Option Err × List String × List S3Obj) :=
  match backend (flatRequest (normalizePath folderPath) 2 none) with
  | .error e => some (some e, [], store)
  | .ok resp =>
    match collectLoop backend (normalizePath folderPath) fuel resp.nextContinuationToken
        ((resp.contents.filter (fun o => o.key != normalizePath folderPath)).map
          (fun o => o.key)) with
    | none => none
    | some (.error e) => some (some e, [], store)
    | some (.ok keys) => some (deletePhase oracle keys (normalizePath folderPath) store)

/-! ## ListAllFolders -/

/-- The empty response the ignored-error branch of ListAllFolders's loop
effectively sees (the SDK hands back an empty output next to the error,
and the source drops the error). -/
def emptyResponse : ListV2Response := ⟨[], [], none, false⟩

/-- Embeds the contents scan inside ListAllFolders's pagination loop: skip
the marker, keep zero-size entries as folder records, and update the
loop token once per examined entry, breaking when it is nil. -/
def folderScan (fp : String) (pageTok : Option String) :
    List S3Obj → Option String → List ObjectDetails → (List ObjectDetails × Option String)
  | [], tok, acc => (acc, tok)
  | o :: rest, tok, acc =>
    if o.key = fp then folderScan fp pageTok rest tok acc
    else
      let acc' := if o.size == 0 then
          acc ++ [{ name := o.key, isFolder := o.size == 0, size := o.size,
                    lastModified := o.lastModified }] else acc
      match pageTok with
      | none => (acc', none)
      | some t => folderScan fp pageTok rest (some t) acc'

/-- Embeds ListAllFolders's pagination loop; a failing page fetch is
ignored by the source (curr, _ :=) and behaves as an empty response. -/
def listAllFoldersLoop (backend : Backend) (fp : String) :
    Nat → Option String → List ObjectDetails → Option (List ObjectDetails)
  | _, none, acc => some acc
  | 0, some _, _ => none
  | fuel + 1, some t, acc =>
    let curr := match backend (flatRequest fp 1000 (some t)) with
                | .ok r => r
                | .error _ => emptyResponse
    let p := folderScan fp curr.nextContinuationToken curr.contents (some t) acc
    listAllFoldersLoop backend fp fuel p.2 p.1

/-- Embeds S3.ListAllFolders: flat listing with MaxKeys 1000; the first
call's contents are collected and, on error, the partial (empty) list is
returned with no error — the function's type carries no error at all. -/
def listAllFolders (fuel : Nat) (backend : Backend) (folderPath : String) :
    Option (List ObjectDetails) :=
  match backend (flatRequest (normalizePath folderPath) 1000 none) with
  | .error _ => some []
  | .ok resp =>
    listAllFoldersLoop backend (normalizePath folderPath) fuel resp.nextContinuationToken
      (resp.contents.foldl (fun acc o =>
        if o.key = normalizePath folderPath then acc
        else if o.size == 0 then
          acc ++ [{ name := o.key, isFolder := o.size == 0, size := o.size,
                    lastModified := o.lastModified }] else acc) [])

/-! ## ListAllFiles -/

/-- Embeds the page-draining loop shared by ListAllFiles's top level and
its inner recursion: while the token is nonempty, fetch the next page with
the fixed internal page size 10 and append its records.  The dead
IsLastPage guard of the source is immediately overwritten by the token
assignment and is therefore not modelled.  A page-fetch error is ignored
by the source and then dereferenced (a crash): modelled as none, as is
fuel exhaustion. -/
def drainPages (backend : Backend) (presign : String → Except Err String) (now : Nat)
    (path : String) : Nat → String → Option (List ObjectDetails)
  | _, "" => some []
  | 0, _ => none
  | fuel + 1, tok =>
    match listFiles backend presign now emptyCache path tok 10 false with
    | .error _ => none
    | .ok (temp, _) =>
      match drainPages backend presign now path fuel temp.nextPageToken with
      | none => none
      | some rest => some (temp.files ++ rest)

/-- Sequential recursion into a list of subfolder paths with the recursive
lister f, appending each contribution in order; none propagates. -/
def seqContribs (f : String → Option (List ObjectDetails)) :
    List String → Option (List ObjectDetails)
  | [] => some []
  | p :: ps =>
    match f p with
    | none => none
    | some a =>
      match seqContribs f ps with
      | none => none
      | some b => some (a ++ b)

/-- Embeds listObjectsRecursively inside ListAllFiles: list the folder's
first page, drain the remaining pages, append those pages' records then
the first page's records, and recurse into the folder records of the
first page only (as the source does).  Returns this call's contribution
to the accumulated record list; none models a crash or exhausted fuel
(fuel bounds the recursion depth). -/
def listRec (backend : Backend) (presign : String → Except Err String) (now : Nat) :
    Nat → String → Option (List ObjectDetails)
  | 0 => fun _ => none
  | fuel + 1 => fun path =>
    match listFiles backend presign now emptyCache path "" 10 false with
    | .error _ => none
    | .ok (objects, _) =>
      match drainPages backend presign now path fuel objects.nextPageToken with
      | none => none
      | some drained =>
        match seqContribs (listRec backend presign now fuel)
            ((objects.files.filter (fun r => r.isFolder)).map (fun r => r.name)) with
        | none => none
        | some recs => some (drained ++ objects.files ++ recs)

/-- Embeds S3.ListAllFiles: drain the root folder's pages, recurse into the
folder records of the root's first page, and return the first page's
records followed by everything accumulated (pages 2.. then recursive
contributions), with the summary fields copied from the first page. -/
def listAllFiles (backend : Backend) (presign : String → Except Err String) (now : Nat)
    (fuel : Nat) (folderPath : String) : Option ListFilesResponse :=
  match listFiles backend presign now emptyCache folderPath "" 10 false with
  | .error _ => none
  | .ok (objects, _) =>
    match drainPages backend presign now folderPath fuel objects.nextPageToken with
    | none => none
    | some drained =>
      match seqContribs (listRec backend presign now fuel)
          ((objects.files.filter (fun r => r.isFolder)).map (fun r => r.name)) with
      | none => none
      | some recs =>
        let allObjects := objects.files ++ (drained ++ recs)
        some { files := allObjects,
               nextPageToken := objects.nextPageToken,
               isLastPage := objects.isLastPage,
               noOfRecordsReturned := allObjects.length,
               filesCount := objects.filesCount,
               foldersCount := objects.foldersCount }

/-! ## Concrete inputs used by counterexamples, failing-input evaluations
and witnesses -/

/-- Store exhibiting DeleteFolder's last-page truncation: marker plus three
files under docs/. -/
def store2 : List S3Obj :=
  [⟨"docs/", 0, 0⟩, ⟨"docs/a", 1, 0⟩, ⟨"docs/b", 1, 0⟩, ⟨"docs/c", 1, 0⟩]

/-- Store whose root listing needs two pages at the internal page size 10:
eleven plain files followed by one nested key, so the folder sub/ is only
discovered on the second page. -/
def store1 : List S3Obj :=
  [⟨"a0", 1, 0⟩, ⟨"a1", 1, 0⟩, ⟨"a2", 1, 0⟩, ⟨"a3", 1, 0⟩, ⟨"a4", 1, 0⟩,
   ⟨"a5", 1, 0⟩, ⟨"a6", 1, 0⟩, ⟨"a7", 1, 0⟩, ⟨"a8", 1, 0⟩, ⟨"a9", 1, 0⟩,
   ⟨"b0", 1, 0⟩, ⟨"sub/x", 1, 0⟩]

/-- Backend whose first flat page carries one key and a continuation token,
and whose every later page is empty with no token: a response sequence the
S3 listing contract allows. -/
def stuckBackend : Backend := fun req =>
  match req.continuationToken with
  | none => .ok ⟨[⟨"docs/x", 1, 0⟩], [], some "t", true⟩
  | some _ => .ok emptyResponse

/-- Backend that fails every call. -/
def failingBackend : Backend := fun _ => .error "backend down"

/-- One-page response with a file key lexicographically before the common
pfx, for the ordering counterexample. -/
def resp9 : ListV2Response := ⟨[⟨"docs/a.txt", 5, 0⟩], ["docs/b/"], none, false⟩

/-- The page ListFiles produces from resp9: the folder record first. -/
def page9 : ListFilesResponse :=
  { files := [⟨"docs/b/", true, 0, 0, ""⟩,
              ⟨"docs/a.txt", false, 5, 0, "https://signed/docs/a.txt"⟩],
    nextPageToken := "", isLastPage := true,
    noOfRecordsReturned := 2, filesCount := 1, foldersCount := 1 }

/-- The cache state after the single link resolution of resp9's file. -/
def cache9 : URLCache := ⟨[("docs/a.txt", "https://signed/docs/a.txt", 900)]⟩

/-- Response used by the C4/C10 witnesses: a marker, a file and a common
pfx under docs/. -/
def resp4 : ListV2Response :=
  ⟨[⟨"docs/", 0, 0⟩, ⟨"docs/a", 1, 0⟩], ["docs/s/"], none, false⟩

/-- Delete oracle failing exactly on docs/b. -/
def oracle6 : String → Option Err := fun k => if k = "docs/b" then some "denied" else none

/-- The page ListFiles produces from resp4 with presignOk at time 0. -/
def page4 : ListFilesResponse :=
  { files := [⟨"docs/s/", true, 0, 0, ""⟩,
              ⟨"docs/a", false, 1, 0, "https://signed/docs/a"⟩],
    nextPageToken := "", isLastPage := true,
    noOfRecordsReturned := 2, filesCount := 1, foldersCount := 1 }

/-- The cache state after resolving resp4's single file link. -/
def cache4 : URLCache := ⟨[("docs/a", "https://signed/docs/a", 900)]⟩

/-- One-file response for the presign-failure part of the C5 witness. -/
def resp5 : ListV2Response := ⟨[⟨"docs/k", 1, 0⟩], [], none, false⟩

/-! ## Helper lemmas -/

theorem find?_filter_keep {α} (p q : α → Bool) (l : List α)
    (h : ∀ x, p x = true → q x = true) :
    (l.filter q).find? p = l.find? p := by
  induction l with
  | nil => rfl
  | cons a l ih =>
    by_cases hq : q a = true
    · by_cases hp : p a = true
      · simp [List.filter_cons, hq, List.find?_cons_of_pos, hp]
      · simp only [List.filter_cons, hq, if_pos]
        rw [List.find?_cons_of_neg _ (by simp [hp]),
            List.find?_cons_of_neg _ (by simp [hp]), ih]
    · have hp : ¬ p a = true := fun hpa => hq (h a hpa)
      simp only [List.filter_cons, if_neg hq, ih]
      rw [List.find?_cons_of_neg _ (by simp [hp])]

theorem URLCache.get_set_self (c : URLCache) (k url : String) (e t : Nat) :
    (c.set k url e).get k t = if t < e then some url else none := by
  simp [URLCache.get, URLCache.set, List.find?_cons_of_pos]

theorem URLCache.get_set_of_ne (c : URLCache) (k k' url : String) (e t : Nat)
    (hne : k ≠ k') :
    (c.set k' url e).get k t = c.get k t := by
  unfold URLCache.get URLCache.set
  rw [List.find?_cons_of_neg _ (by simp [Ne.symm hne]),
      find?_filter_keep _ _ _ (by intro x hx; simp at hx ⊢; rw [hx]; exact hne)]

/-! ## C3 — the link cache -/

/-- C3: for every key, a lookup pair within the 15-minute ttl presigns at
most once (here: exactly once on a miss, zero times on the cached second
call) and returns the same URL both times; a lookup at or past the stored
entry's expiry presigns again; an unexpired cached entry is returned as is
with zero presign calls. -/
theorem c3_link_cache_semantics (presign : String → Except Err String) (key u : String)
    (c : URLCache) (t1 t2 t3 : Nat)
    (hp : presign key = .ok u) (hmiss : c.get key t1 = none)
    (h2 : t2 < t1 + expirySeconds) (h3 : t1 + expirySeconds ≤ t3) :
    (∃ c1, generateDownloadLink presign t1 key c = .ok (u, c1, 1) ∧
       generateDownloadLink presign t2 key c1 = .ok (u, c1, 0) ∧
       ∃ c2, generateDownloadLink presign t3 key c1 = .ok (u, c2, 1)) ∧
    (∀ (url : String) (c0 : URLCache) (t : Nat), c0.get key t = some url →
       generateDownloadLink presign t key c0 = .ok (url, c0, 0)) := by
  constructor
  · refine ⟨c.set key u (t1 + expirySeconds), ?_, ?_, ?_⟩
    · simp [generateDownloadLink, hmiss, hp]
    · simp [generateDownloadLink, URLCache.get_set_self, h2]
    · exact ⟨(c.set key u (t1 + expirySeconds)).set key u (t3 + expirySeconds),
        by simp [generateDownloadLink, URLCache.get_set_self, Nat.not_lt.2 h3, hp]⟩
  · intro url c0 t hget
    simp [generateDownloadLink, hget]

/-- Witness for C3 at a concrete key, presign function and times 0, 5, 900. -/
theorem c3_witness :
    ∃ c1, generateDownloadLink (fun _ => .ok "u") 0 "k" emptyCache = .ok ("u", c1, 1) ∧
      generateDownloadLink (fun _ => .ok "u") 5 "k" c1 = .ok ("u", c1, 0) ∧
      ∃ c2, generateDownloadLink (fun _ => .ok "u") 900 "k" c1 = .ok ("u", c2, 1) :=
  (c3_link_cache_semantics (fun _ => .ok "u") "k" "u" emptyCache 0 5 900 rfl rfl
    (by decide) (by decide)).1

/-! ## Shape lemmas for ListFiles -/

theorem processContents_names (presign : String → Except Err String) (now : Nat) (fp : String) :
    ∀ (objs : List S3Obj) (c : URLCache) (recs : List ObjectDetails) (cnt : Nat)
      (c' : URLCache),
      processContents presign now fp objs c = .ok (recs, cnt, c') →
      recs.map ObjectDetails.name = (objs.filter (fun o => o.key != fp)).map S3Obj.key := by
  intro objs
  induction objs with
  | nil =>
    intro c recs cnt c' h
    simp only [processContents, Except.ok.injEq, Prod.mk.injEq] at h
    simp [← h.1]
  | cons o rest ih =>
    intro c recs cnt c' h
    rw [processContents] at h
    by_cases hk : o.key = fp
    · rw [if_pos hk] at h
      rw [List.filter_cons_of_neg (by simp [hk])]
      exact ih c recs cnt c' h
    · rw [if_neg hk] at h
      split at h
      next e heq => cases h
      next url c1 n heq =>
        split at h
        next e heq2 => cases h
        next recs0 cnt0 c2 heq2 =>
          simp only [Except.ok.injEq, Prod.mk.injEq] at h
          obtain ⟨hrecs, _, _⟩ := h
          rw [← hrecs, List.filter_cons_of_pos (by simp [hk])]
          simpa [fileRecord] using ih c1 recs0 cnt0 c2 heq2

theorem processContents_count (presign : String → Except Err String) (now : Nat) (fp : String) :
    ∀ (objs : List S3Obj) (c : URLCache) (recs : List ObjectDetails) (cnt : Nat)
      (c' : URLCache),
      processContents presign now fp objs c = .ok (recs, cnt, c') →
      recs.length = cnt := by
  intro objs
  induction objs with
  | nil =>
    intro c recs cnt c' h
    simp only [processContents, Except.ok.injEq, Prod.mk.injEq] at h
    simp [← h.1, ← h.2.1]
  | cons o rest ih =>
    intro c recs cnt c' h
    rw [processContents] at h
    by_cases hk : o.key = fp
    · rw [if_pos hk] at h
      exact ih c recs cnt c' h
    · rw [if_neg hk] at h
      split at h
      next e heq => cases h
      next url c1 n heq =>
        split at h
        next e heq2 => cases h
        next recs0 cnt0 c2 heq2 =>
          simp only [Except.ok.injEq, Prod.mk.injEq] at h
          obtain ⟨hrecs, hcnt, _⟩ := h
          rw [← hrecs, ← hcnt]
          simp [ih c1 recs0 cnt0 c2 heq2]

theorem listFiles_ok_false (backend : Backend) (presign : String → Except Err String)
    (now : Nat) (c : URLCache) (p tok : String) (ps : Nat) (resp : ListV2Response)
    (page : ListFilesResponse) (c' : URLCache)
    (hb : backend (listPageRequest (normalizePath p) tok ps) = .ok resp)
    (hres : listFiles backend presign now c p tok ps false = .ok (page, c')) :
    ∃ fileRecs cnt,
      processContents presign now (normalizePath p) resp.contents c = .ok (fileRecs, cnt, c') ∧
      page = { files := resp.commonPrefixes.map (folderRecord now) ++ fileRecs,
               nextPageToken := resp.nextContinuationToken.getD "",
               isLastPage := !resp.isTruncated,
               noOfRecordsReturned :=
                 (resp.commonPrefixes.map (folderRecord now) ++ fileRecs).length,
               filesCount := cnt,
               foldersCount := resp.commonPrefixes.length } := by
  unfold listFiles at hres
  rw [hb] at hres
  dsimp only at hres
  split at hres
  next e heq => cases hres
  next fileRecs cnt c1 heq =>
    simp only [Except.ok.injEq, Prod.mk.injEq] at hres
    exact ⟨fileRecs, cnt, by rw [← hres.2]; exact heq, (hres.1).symm⟩

theorem listFiles_ok_true (backend : Backend) (presign : String → Except Err String)
    (now : Nat) (c : URLCache) (p tok : String) (ps : Nat) (resp : ListV2Response)
    (page : ListFilesResponse) (c' : URLCache)
    (hb : backend (listPageRequest (normalizePath p) tok ps) = .ok resp)
    (hres : listFiles backend presign now c p tok ps true = .ok (page, c')) :
    c' = c ∧
      page = { files := resp.commonPrefixes.map (folderRecord now),
               nextPageToken := resp.nextContinuationToken.getD "",
               isLastPage := !resp.isTruncated,
               noOfRecordsReturned := (resp.commonPrefixes.map (folderRecord now)).length,
               filesCount := 0,
               foldersCount := resp.commonPrefixes.length } := by
  unfold listFiles at hres
  rw [hb] at hres
  dsimp only at hres
  simp only [Except.ok.injEq, Prod.mk.injEq] at hres
  exact ⟨(hres.2).symm, (hres.1).symm⟩

/-! ## C4 — the folder marker is never a returned record -/

/-- C4: for every folder path, continuation token, page size and flag
value, no record of a successful list_page has the normalized folder path
as its name: the marker content entry is skipped, and every backend common
pfx strictly extends the request pfx (the listing contract), so
folder records cannot collide with it either. -/
theorem c4_marker_excluded (backend : Backend) (presign : String → Except Err String)
    (now : Nat) (c : URLCache) (p tok : String) (ps : Nat) (flag : Bool)
    (resp : ListV2Response) (page : ListFilesResponse) (c' : URLCache)
    (hb : backend (listPageRequest (normalizePath p) tok ps) = .ok resp)
    (hcp : ∀ q ∈ resp.commonPrefixes, (normalizePath p).length < q.length)
    (hres : listFiles backend presign now c p tok ps flag = .ok (page, c')) :
    ∀ r ∈ page.files, r.name ≠ normalizePath p := by
  have hfold : ∀ r ∈ resp.commonPrefixes.map (folderRecord now),
      r.name ≠ normalizePath p := by
    intro r hr
    obtain ⟨q, hq, rfl⟩ := List.mem_map.1 hr
    intro hEq
    have hlt := hcp q hq
    rw [show (folderRecord now q).name = q from rfl] at hEq
    rw [hEq] at hlt
    exact lt_irrefl _ hlt
  cases flag with
  | true =>
    obtain ⟨-, rfl⟩ := listFiles_ok_true _ _ _ _ _ _ _ _ _ _ hb hres
    exact hfold
  | false =>
    obtain ⟨fileRecs, cnt, hpc, rfl⟩ := listFiles_ok_false _ _ _ _ _ _ _ _ _ _ hb hres
    intro r hr
    rcases List.mem_append.1 hr with h | h
    · exact hfold r h
    · have hnames := processContents_names presign now (normalizePath p)
        resp.contents c fileRecs cnt c' hpc
      have hmem : r.name ∈ fileRecs.map ObjectDetails.name := List.mem_map_of_mem _ h
      rw [hnames] at hmem
      obtain ⟨o, ho, hkey⟩ := List.mem_map.1 hmem
      have hne := (List.mem_filter.1 ho).2
      rw [← hkey]
      simpa using hne

/-- Witness for C4: the folder record docs/s/ of the concrete page is not
the marker docs/. -/
theorem c4_witness : (folderRecord 0 "docs/s/").name ≠ normalizePath "docs" :=
  c4_marker_excluded (fun _ => .ok resp4) presignOk 0 emptyCache "docs" "" 5 false
    resp4 page4 cache4 rfl (by decide) (by decide) _ (by decide)

/-! ## C9 — record order within a page -/

/-- C9 counterexample: the claim says records appear in the backend's
single lexicographic key order, folders and files interleaved; here the
backend enumerates docs/a.txt before the group docs/b/, yet the page lists
the folder record first — out of lexicographic order. -/
theorem c9_counterexample :
    listFiles (fun _ => .ok resp9) presignOk 0 emptyCache "docs" "" 10 false =
      .ok (page9, cache9) ∧
    page9.files.map ObjectDetails.name = ["docs/b/", "docs/a.txt"] ∧
    List.Lex (· < ·) "docs/a.txt".data "docs/b/".data ∧
    ¬ List.Lex (· < ·) "docs/b/".data "docs/a.txt".data := by
  refine ⟨by decide, by decide, by decide, by decide⟩

/-- C9 (amended): the records of a successful list_page are the folder
records, in the backend's common-pfx order, followed by the file
records, in the backend's contents order (the marker entry removed); the
two groups are not interleaved into one lexicographic sequence. -/
theorem c9_page_grouped_order (backend : Backend) (presign : String → Except Err String)
    (now : Nat) (c : URLCache) (p tok : String) (ps : Nat)
    (resp : ListV2Response) (page : ListFilesResponse) (c' : URLCache)
    (hb : backend (listPageRequest (normalizePath p) tok ps) = .ok resp)
    (hres : listFiles backend presign now c p tok ps false = .ok (page, c')) :
    page.files.map ObjectDetails.name =
      resp.commonPrefixes ++
        (resp.contents.filter (fun o => o.key != normalizePath p)).map S3Obj.key := by
  obtain ⟨fileRecs, cnt, hpc, rfl⟩ := listFiles_ok_false _ _ _ _ _ _ _ _ _ _ hb hres
  rw [List.map_append]
  congr 1
  · rw [List.map_map, show ObjectDetails.name ∘ folderRecord now = id from funext fun q => rfl,
      List.map_id]
  · exact processContents_names _ _ _ _ _ _ _ _ hpc

/-- Witness for C9's amended statement at the concrete one-page backend. -/
theorem c9_witness :
    page9.files.map ObjectDetails.name =
      resp9.commonPrefixes ++
        (resp9.contents.filter (fun o => o.key != normalizePath "docs")).map S3Obj.key :=
  c9_page_grouped_order (fun _ => .ok resp9) presignOk 0 emptyCache "docs" "" 10
    resp9 page9 cache9 rfl (by decide)

/-! ## C10 — the counts partition the records -/

/-- C10: every successful list_page satisfies NoOfRecordsReturned =
FilesCount + FoldersCount and NoOfRecordsReturned = number of returned
records, for both values of the folders-only flag. -/
theorem c10_counts_partition (backend : Backend) (presign : String → Except Err String)
    (now : Nat) (c : URLCache) (p tok : String) (ps : Nat) (flag : Bool)
    (resp : ListV2Response) (page : ListFilesResponse) (c' : URLCache)
    (hb : backend (listPageRequest (normalizePath p) tok ps) = .ok resp)
    (hres : listFiles backend presign now c p tok ps flag = .ok (page, c')) :
    page.noOfRecordsReturned = page.filesCount + page.foldersCount ∧
    page.noOfRecordsReturned = page.files.length := by
  cases flag with
  | true =>
    obtain ⟨-, rfl⟩ := listFiles_ok_true _ _ _ _ _ _ _ _ _ _ hb hres
    simp
  | false =>
    obtain ⟨fileRecs, cnt, hpc, rfl⟩ := listFiles_ok_false _ _ _ _ _ _ _ _ _ _ hb hres
    have hlen := processContents_count _ _ _ _ _ _ _ _ hpc
    refine ⟨?_, rfl⟩
    simp only [List.length_append, List.length_map, ← hlen]
    exact Nat.add_comm _ _

/-- Witness for C10 at the concrete resp4 page. -/
theorem c10_witness :
    page4.noOfRecordsReturned = page4.filesCount + page4.foldersCount ∧
    page4.noOfRecordsReturned = page4.files.length :=
  c10_counts_partition (fun _ => .ok resp4) presignOk 0 emptyCache "docs" "" 5 false
    resp4 page4 cache4 rfl (by decide)

/-! ## C5 — error policy of list_page -/

theorem processContents_fail (presign : String → Except Err String) (now : Nat) (fp : String) :
    ∀ (objs : List S3Obj) (c : URLCache),
      (objs.map S3Obj.key).Nodup →
      (∀ o' ∈ objs, c.get o'.key now = none) →
      ∀ o ∈ objs, o.key ≠ fp → ∀ e, presign o.key = .error e →
      ∃ e', processContents presign now fp objs c = .error e' := by
  intro objs
  induction objs with
  | nil => intro c _ _ o ho; cases ho
  | cons a rest ih =>
    intro c hnd hc o ho hofp e hpe
    simp only [List.map_cons, List.nodup_cons] at hnd
    obtain ⟨hout, hndr⟩ := hnd
    have hca : c.get a.key now = none := hc a (List.mem_cons_self a rest)
    rw [processContents]
    by_cases hak : a.key = fp
    · rw [if_pos hak]
      have homem : o ∈ rest := by
        rcases List.mem_cons.1 ho with rfl | h
        · exact absurd hak hofp
        · exact h
      exact ih c hndr (fun o' h' => hc o' (List.mem_cons_of_mem _ h')) o homem hofp e hpe
    · rw [if_neg hak]
      rcases List.mem_cons.1 ho with rfl | homem
      · exact ⟨e, by simp [generateDownloadLink, hca, hpe]⟩
      · cases hg : generateDownloadLink presign now a.key c with
        | error e0 => exact ⟨e0, rfl⟩
        | ok t =>
          obtain ⟨url, c1, n⟩ := t
          have hgen := hg
          unfold generateDownloadLink at hgen
          rw [hca] at hgen
          cases hps : presign a.key with
          | error e0 => rw [hps] at hgen; simp at hgen
          | ok u =>
            rw [hps] at hgen
            dsimp only at hgen
            simp only [Except.ok.injEq, Prod.mk.injEq] at hgen
            obtain ⟨-, hc1, -⟩ := hgen
            have hcr : ∀ o' ∈ rest, c1.get o'.key now = none := by
              intro o' h'
              have hne : o'.key ≠ a.key := fun hEq =>
                hout (hEq ▸ List.mem_map_of_mem S3Obj.key h')
              rw [← hc1, URLCache.get_set_of_ne _ _ _ _ _ _ hne]
              exact hc o' (List.mem_cons_of_mem _ h')
            obtain ⟨e', he'⟩ := ih c1 hndr hcr o homem hofp e hpe
            refine ⟨e', ?_⟩
            dsimp only
            rw [he']

/-- C5: a backend list error is returned verbatim by list_page (for both
flag values and any cache); and when the backend page succeeds but the
presign of some listed non-marker content key fails (keys distinct, cache
empty), list_page returns an error — never a partial page. -/
theorem c5_error_policy (backend : Backend) (presign : String → Except Err String)
    (now : Nat) (p tok : String) (ps : Nat) :
    (∀ (flag : Bool) (c : URLCache) (e : Err),
        backend (listPageRequest (normalizePath p) tok ps) = .error e →
        listFiles backend presign now c p tok ps flag = .error e)
    ∧ (∀ (resp : ListV2Response) (o : S3Obj) (e : Err),
        backend (listPageRequest (normalizePath p) tok ps) = .ok resp →
        (resp.contents.map S3Obj.key).Nodup →
        o ∈ resp.contents → o.key ≠ normalizePath p → presign o.key = .error e →
        ∃ e', listFiles backend presign now emptyCache p tok ps false = .error e') := by
  constructor
  · intro flag c e hb
    unfold listFiles
    rw [hb]
  · intro resp o e hb hnd ho hofp hpe
    have hmiss : ∀ o' ∈ resp.contents, emptyCache.get o'.key now = none := by
      intro o' _
      rfl
    obtain ⟨e', he'⟩ := processContents_fail presign now (normalizePath p)
      resp.contents emptyCache hnd hmiss o ho hofp e hpe
    refine ⟨e', ?_⟩
    unfold listFiles
    rw [hb]
    dsimp only
    rw [he']

/-- Witness for C5: a failing backend propagates its error; a failing
presign aborts the page. -/
theorem c5_witness :
    listFiles failingBackend presignOk 0 emptyCache "docs" "" 10 false =
      .error "backend down" ∧
    ∃ e', listFiles (fun _ => .ok resp5) (fun _ => .error "sig") 0 emptyCache
      "docs" "" 10 false = .error e' :=
  ⟨(c5_error_policy failingBackend presignOk 0 "docs" "" 10).1 false emptyCache
      "backend down" rfl,
   (c5_error_policy (fun _ => .ok resp5) (fun _ => .error "sig") 0 "docs" "" 10).2
      resp5 ⟨"docs/k", 1, 0⟩ "sig" rfl (by decide) (by decide) (by decide) rfl⟩

/-! ## C6 — order and abort behaviour of the deletion phase -/

theorem runDeletes_success (oracle : String → Option Err) :
    ∀ (keys : List String) (store : List S3Obj),
      (∀ k ∈ keys, oracle k = none) →
      runDeletes oracle keys store =
        (none, keys, store.filter (fun o => !(keys.contains o.key))) := by
  intro keys
  induction keys with
  | nil =>
    intro store h
    simp [runDeletes]
  | cons k ks ih =>
    intro store h
    rw [runDeletes, h k (List.mem_cons_self k ks)]
    dsimp only
    rw [ih (store.filter (fun o => o.key != k)) (fun x hx => h x (List.mem_cons_of_mem _ hx))]
    refine congrArg (fun st => (none, k :: ks, st)) ?_
    rw [List.filter_filter]
    refine List.filter_congr ?_
    intro o _
    rcases Decidable.em (o.key = k) with hek | hek <;>
      rcases Decidable.em (o.key ∈ ks) with hm | hm <;>
      simp [List.contains_cons, hek, hm]

theorem runDeletes_fail (oracle : String → Option Err) :
    ∀ (ks1 : List String) (k : String) (ks2 : List String) (store : List S3Obj) (e : Err),
      (∀ x ∈ ks1, oracle x = none) → oracle k = some e →
      runDeletes oracle (ks1 ++ k :: ks2) store =
        (some e, ks1 ++ [k], store.filter (fun o => !(ks1.contains o.key))) := by
  intro ks1
  induction ks1 with
  | nil =>
    intro k ks2 store e _ hk
    rw [List.nil_append, runDeletes, hk]
    simp
  | cons a ks1 ih =>
    intro k ks2 store e h hk
    rw [List.cons_append, runDeletes, h a (List.mem_cons_self a ks1)]
    dsimp only
    rw [ih k ks2 (store.filter (fun o => o.key != a)) e
      (fun x hx => h x (List.mem_cons_of_mem _ hx)) hk]
    refine congrArg (fun st => (some e, a :: (ks1 ++ [k]), st)) ?_
    rw [List.filter_filter]
    refine List.filter_congr ?_
    intro o _
    rcases Decidable.em (o.key = a) with hek | hek <;>
      rcases Decidable.em (o.key ∈ ks1) with hm | hm <;>
      simp [List.contains_cons, hek, hm]

/-- C6: the deletion phase of DeleteFolder deletes the collected keys one
by one in the order collected and the folder marker last; when every call
succeeds the issued trace is exactly keys ++ [marker] and the store loses
exactly those keys; the first failing delete is surfaced as the result,
the remaining keys and the marker are never issued, and the keys deleted
before the failure stay deleted. -/
theorem c6_deletion_phase (oracle : String → Option Err) (fp : String) (store : List S3Obj) :
    (∀ keys : List String, (∀ k ∈ keys, oracle k = none) → oracle fp = none →
      deletePhase oracle keys fp store =
        (none, keys ++ [fp],
         (store.filter (fun o => !(keys.contains o.key))).filter (fun o => o.key != fp)))
    ∧ (∀ (ks1 : List String) (k : String) (ks2 : List String) (e : Err),
        (∀ x ∈ ks1, oracle x = none) → oracle k = some e →
        deletePhase oracle (ks1 ++ k :: ks2) fp store =
          (some e, ks1 ++ [k], store.filter (fun o => !(ks1.contains o.key)))) := by
  constructor
  · intro keys hkeys hfp
    unfold deletePhase
    rw [runDeletes_success oracle keys store hkeys]
    dsimp only
    rw [hfp]
  · intro ks1 k ks2 e h hk
    unfold deletePhase
    rw [runDeletes_fail oracle ks1 k ks2 store e h hk]

/-- Witness for C6 on the concrete store: a clean run deletes docs/x then
the marker; a run failing on docs/b stops there, never touching docs/c or
the marker. -/
theorem c6_witness :
    deletePhase oracle6 ["docs/x"] "docs/" store2 =
      (none, ["docs/x", "docs/"],
       (store2.filter (fun o => !((["docs/x"] : List String).contains o.key))).filter
         (fun o => o.key != "docs/")) ∧
    deletePhase oracle6 (["docs/a"] ++ "docs/b" :: ["docs/c"]) "docs/" store2 =
      (some "denied", ["docs/a", "docs/b"],
       store2.filter (fun o => !((["docs/a"] : List String).contains o.key))) :=
  ⟨(c6_deletion_phase oracle6 "docs/" store2).1 ["docs/x"] (by decide) (by decide),
   (c6_deletion_phase oracle6 "docs/" store2).2 ["docs/a"] "docs/b" ["docs/c"] "denied"
     (by decide) (by decide)⟩

/-! ## C7 — the pagination loop of DeleteFolder need not terminate -/

theorem collectLoop_stuck :
    ∀ (fuel : Nat) (acc : List String),
      collectLoop stuckBackend "docs/" fuel (some "t") acc = none := by
  intro fuel
  induction fuel with
  | zero => intro acc; rfl
  | succ n ih => intro acc; exact ih acc

/-- C7 (refuted by the code): the claim says the pagination loop consumes
every page and terminates for every finite backend response sequence, in
particular when a page has no content entries.  Against stuckBackend —
whose page for the token "t" is empty with no further token, a response
the listing contract allows — DeleteFolder never finishes, for any amount
of fuel: the loop token is only updated inside the iteration over page
contents, so an empty page leaves it unchanged forever. -/
theorem c7_deleteFolder_pagination_diverges (fuel : Nat) :
    deleteFolder fuel stuckBackend (fun _ => none) "docs" [] = none := by
  show (match collectLoop stuckBackend "docs/" fuel (some "t") ["docs/x"] with
        | none => none
        | some (Except.error e) => some (some e, ([] : List String), ([] : List S3Obj))
        | some (Except.ok keys) =>
          some (deletePhase (fun _ => none) keys "docs/" [])) = none
  rw [collectLoop_stuck fuel ["docs/x"]]

/-! ## C8 — ListAllFolders and backend errors -/

/-- C8 counterexample: the initial backend listing call fails, yet
ListAllFolders returns an ordinary (empty) folder list; its result type
carries no error channel at all, so nothing is propagated. -/
theorem c8_counterexample :
    failingBackend (flatRequest (normalizePath "docs") 1000 none) = .error "backend down" ∧
    listAllFolders 5 failingBackend "docs" = some [] :=
  ⟨rfl, by decide⟩

/-- C8 (amended): when the initial backend listing call fails,
ListAllFolders swallows the error and returns the partial (empty) folder
list collected so far; errors of later page fetches are likewise ignored
inside the loop. -/
theorem c8_swallows_initial_error (fuel : Nat) (backend : Backend) (p : String) (e : Err)
    (hb : backend (flatRequest (normalizePath p) 1000 none) = .error e) :
    listAllFolders fuel backend p = some [] := by
  unfold listAllFolders
  rw [hb]

/-- Witness for C8's amended statement. -/
theorem c8_witness : listAllFolders 3 failingBackend "x" = some [] :=
  c8_swallows_initial_error 3 failingBackend "x" "backend down" rfl

/-! ## C1 and C2 — failing executions of the recursive aggregator and the
recursive deleter -/

/-- C1 (refuted by the code): over store1 the folder sub/ is discovered on
the second page of the root listing; ListAllFiles surfaces the folder
record itself but never descends into it, so sub/x is missing from the
aggregate although one drained list_page call on sub/ returns it — the
result is not the union of the drained listings of every reachable
folder. -/
theorem c1_listAllFiles_omits_second_page_folder :
    (listAllFiles (storeBackend store1) presignOk 0 20 "").map
        (fun r => r.files.map (fun o => o.name)) =
      some ["a0", "a1", "a2", "a3", "a4", "a5", "a6", "a7", "a8", "a9", "b0", "sub/"] ∧
    (listFiles (storeBackend store1) presignOk 0 emptyCache "sub/" "" 10 false).toOption.map
        (fun pr => pr.1.files.map (fun o => o.name)) = some ["sub/x"] ∧
    "sub/x" ∉ ["a0", "a1", "a2", "a3", "a4", "a5", "a6", "a7", "a8", "a9", "b0", "sub/"] :=
  ⟨by decide, by decide, by decide⟩

/-- C2 (refuted by the code): deleting docs/ over store2 succeeds, issues
the deletes for docs/a, docs/b and the marker only, and leaves the
descendant key docs/c in the backend: the continuation-token update and
nil-break inside the contents loop drop every last-page entry after the
first one. -/
theorem c2_deleteFolder_leaves_residual_key :
    deleteFolder 5 (storeBackend store2) (fun _ => none) "docs" store2 =
      some (none, ["docs/a", "docs/b", "docs/"], [⟨"docs/c", 1, 0⟩]) ∧
    "docs/".data.isPrefixOf "docs/c".data = true :=
  ⟨by decide, by decide⟩

end FileService

